import Mathlib

/-!
Formal model of `src/auggie_mcp_server.py` (an MCP server wrapping the
`auggie` coding-agent CLI with git-based change tracking).

External processes are modelled by an oracle (`World.run`) mapping an argv
to its outcome; wall-clock time is modelled by an oracle field
(`World.elapsedMs`), and the timeout behaviour of `_run` is modelled
separately (`runModel`) with an abstract process duration.  Python string
operations (`strip`, slicing, `splitlines`, `re.match` of the fixed status
pattern, `int()`) are translated to executable Lean functions over
`List Char`; ASCII whitespace is modelled (the inputs at stake are ASCII)
and `int()` underscore separators are not modelled.  Filesystem side
effects (the sandbox settings file) and the logging side channel
(`ctx.info`) have no bearing on the returned values and are not modelled,
except that each model function also returns the list of argvs it spawned,
mirroring the sequence of `create_subprocess_exec` calls the Python code
performs.
-/

namespace Auggie

/-- Python `\s` on ASCII: the whitespace class used by `str.strip`,
`str.split` and the `re` module (from `for line in ...` context of
`src/auggie_mcp_server.py` line 176). -/
def isPySpace (c : Char) : Bool :=
  c == ' ' || c == '\t' || c == '\n' || c == '\r' || c == '\x0b' || c == '\x0c'

/-- Python `str.strip()` with no argument: drop whitespace from both ends. -/
def pyStrip (s : String) : String :=
  String.mk (((s.data.dropWhile isPySpace).reverse.dropWhile isPySpace).reverse)

/-- Python `a or b` on strings: `b` when `a` is empty (falsy), else `a`. -/
def strOr (a b : String) : String :=
  if a = "" then b else a

/-- Python `s[:n]`: the first `n` characters (code points) of `s`. -/
def takeChars (n : Nat) (s : String) : String :=
  String.mk (s.data.take n)

/-- Python `sep.join(xs)`. -/
def joinSep (sep : String) : List String → String
  | [] => ""
  | [x] => x
  | x :: y :: xs => x ++ sep ++ joinSep sep (y :: xs)

/-- Helper for `pySplitlines`: accumulates the current line (reversed). -/
def splitlinesAux : List Char → List Char → List (List Char)
  | [], acc => if acc.isEmpty then [] else [acc.reverse]
  | '\r' :: '\n' :: rest, acc => acc.reverse :: splitlinesAux rest []
  | '\r' :: rest, acc => acc.reverse :: splitlinesAux rest []
  | '\n' :: rest, acc => acc.reverse :: splitlinesAux rest []
  | c :: rest, acc => splitlinesAux rest (c :: acc)

/-- Python `str.splitlines()` restricted to the common terminators
`\n`, `\r`, `\r\n` (git status output uses `\n`). -/
def pySplitlines (s : String) : List String :=
  (splitlinesAux s.data []).map String.mk

/-- The character class `[AMDR?]` of the status regex at
`src/auggie_mcp_server.py` line 176. -/
def isStatusChar (c : Char) : Bool :=
  c == 'A' || c == 'M' || c == 'D' || c == 'R' || c == '?'

/-- The `\s+(.*)$` tail of the status regex: requires at least one
whitespace character, then (greedy `\s+` first succeeding attempt)
captures everything after the maximal whitespace run.  The input line
carries no newline (it comes from `splitlines`), so `.*$` matches the
whole remainder. -/
def wsThenCapture (cs : List Char) : Option (List Char) :=
  match cs with
  | c :: _ => if isPySpace c then some (cs.dropWhile isPySpace) else none
  | [] => none

/-- Python `re.match(r"^\s*[AMDR?]{1,2}\s+(.*)$", line)` on a
newline-free line, returning the captured group: skip leading
whitespace, take one or two status-class characters (greedy, trying the
two-character code first and backtracking to one), then `\s+(.*)$`. -/
def matchStatusChars (cs : List Char) : Option (List Char) :=
  match cs.dropWhile isPySpace with
  | c1 :: rest =>
    if isStatusChar c1 then
      match rest with
      | c2 :: rest2 =>
        if isStatusChar c2 then
          match wsThenCapture rest2 with
          | some p => some p
          | none => wsThenCapture rest
        else wsThenCapture rest
      | [] => none
    else none
  | [] => none

/-- String-level wrapper of `matchStatusChars`
(`src/auggie_mcp_server.py` line 176). -/
def matchStatusLine (line : String) : Option String :=
  (matchStatusChars line.data).map String.mk

/-- The change collector loop of `implement`
(`src/auggie_mcp_server.py` lines 175-178): each line matching the
status pattern contributes its captured path; non-matching lines are
skipped. -/
def collectFilesChanged (lines : List String) : List String :=
  lines.filterMap matchStatusLine

/-- Head-of-list whitespace test, used to state the characterization of
recognized status lines. -/
def headIsSpace : List Char → Bool
  | c :: _ => isPySpace c
  | [] => false

/-- Claim-side characterization of which lines the change collector
recognizes, transcribed from the claim wording: after optional leading
whitespace, a status code consisting solely of one or two characters
from the set A, M, D, R, ? followed by a whitespace character (then the
path, which may be anything including empty).  Compared against
`matchStatusLine` by theorem. -/
def statusLineRecognized (cs : List Char) : Bool :=
  match cs.dropWhile isPySpace with
  | c1 :: c2 :: rest =>
    isStatusChar c1 && (isPySpace c2 || (isStatusChar c2 && headIsSpace rest))
  | _ => false

/-- Result of a completed external process: `(returncode, stdout, stderr)`
as returned by `_run` (`src/auggie_mcp_server.py` lines 29-42), streams
already decoded leniently to text. -/
structure RunResult where
  code : Int
  out : String
  err : String
deriving Repr, DecidableEq

/-- Outcome of attempting to spawn and await one external process:
it completes with a `RunResult`, or times out (`asyncio.TimeoutError`
after `proc.kill()`), or cannot be spawned (`FileNotFoundError`). -/
inductive RunOutcome where
  | ok (r : RunResult)
  | timeout
  | spawnError (msg : String)
deriving Repr, DecidableEq

/-- The Python exceptions that can escape the two operations.
`systemExit` models `SystemExit` (raised by `sys.exit`), which is a
`BaseException` but not an `Exception`; all other constructors model
`Exception` subclasses (`RuntimeError`, `asyncio.TimeoutError`,
`FileNotFoundError`). -/
inductive PyErr where
  | runtimeError (msg : String)
  | timeoutError
  | spawnError (msg : String)
  | systemExit (code : Int)
deriving Repr, DecidableEq

/-- Whether the error is an `Exception` (caught by `except Exception`);
`SystemExit` derives from `BaseException` only. -/
def PyErr.isException : PyErr → Bool
  | PyErr.systemExit _ => false
  | _ => true

/-- Payload used when re-wrapping a caught exception into
`RuntimeError(f"Preflight failed: {e}")`. -/
def PyErr.text : PyErr → String
  | PyErr.runtimeError m => m
  | PyErr.timeoutError => ""
  | PyErr.spawnError m => m
  | PyErr.systemExit _ => ""

/-- Oracle for one call into the server: the outcome of each external
process by argv, the current working directory (`os.getcwd()`), and the
elapsed wall-clock milliseconds reported in `usage` (`time.time()`
differences are opaque to the model).  `cwd`, environment and timeout
arguments of individual spawns are absorbed into the argv-indexed
oracle. -/
structure World where
  run : List String → RunOutcome
  cwd : String
  elapsedMs : Nat

/-- Argv of the node runtime version probe (`src/auggie_mcp_server.py`
line 206). -/
def nodeCmd : List String := ["node", "-v"]

/-- Argv of the agent binary version probe (line 210). -/
def auggieVersionCmd : List String := ["auggie", "--version"]

/-- Argv of `git status --porcelain` (line 174). -/
def gitStatusCmd : List String := ["git", "status", "--porcelain"]

/-- Argv of `git diff` (line 182). -/
def gitDiffCmd : List String := ["git", "diff"]

/-- Argv of `git add -A` (line 187). -/
def gitAddCmd : List String := ["git", "add", "-A"]

/-- Argv of `git rev-parse HEAD` (line 192). -/
def gitRevParseCmd : List String := ["git", "rev-parse", "HEAD"]

/-- Argv of `git commit -m <msg>` (line 190). -/
def gitCommitCmd (msg : String) : List String := ["git", "commit", "-m", msg]

/-- Argv of `git checkout -B <branch>` (line 146). -/
def gitCheckoutCmd (b : String) : List String := ["git", "checkout", "-B", b]

/-- Optional flag insertion of `_auggie_base_args`: Python truthiness,
so `None` and the empty string both omit the flag. -/
def optFlag (flag : String) (v : Option String) : List String :=
  match v with
  | some s => if s = "" then [] else [flag, s]
  | none => []

/-- `_auggie_base_args` (`src/auggie_mcp_server.py` lines 45-61). -/
def auggieBaseArgs (instruction : String) (workspace_root model rules_path : Option String)
    (quiet : Bool) : List String :=
  "auggie" ::
    ((if quiet then ["--quiet"] else ["--print"]) ++
      optFlag "--workspace-root" workspace_root ++
      optFlag "--model" model ++
      optFlag "--rules" rules_path ++
      [instruction])

/-- `_git` (`src/auggie_mcp_server.py` lines 98-102): run `git <args>`;
on non-zero exit raise `RuntimeError` carrying the subcommand and the
non-empty one of stripped stderr/stdout (stderr preferred);
otherwise return raw stdout. -/
def gitCall (w : World) (args : List String) : Except PyErr String :=
  match w.run ("git" :: args) with
  | RunOutcome.timeout => Except.error PyErr.timeoutError
  | RunOutcome.spawnError m => Except.error (PyErr.spawnError m)
  | RunOutcome.ok r =>
    if r.code = 0 then Except.ok r.out
    else Except.error (PyErr.runtimeError
      ("git " ++ joinSep " " args ++ " failed: " ++ strOr (pyStrip r.err) (pyStrip r.out)))

/-- First component of `out.strip().lstrip("v").split(".")`
(`src/auggie_mcp_server.py` line 208). -/
def verFirst (out : String) : String :=
  String.mk (((pyStrip out).data.dropWhile (fun c => c == 'v')).takeWhile (fun c => c != '.'))

/-- Decimal digits to a natural number. -/
def digitsToNat (ds : List Char) : Nat :=
  ds.foldl (fun n c => n * 10 + (c.toNat - 48)) 0

/-- Python `int(s)` (without underscore separators): strip whitespace,
optional sign, then a non-empty digit string; `none` models the
`ValueError`. -/
def pyIntOpt (s : String) : Option Int :=
  let parse : List Char → Option Int := fun ds =>
    if !ds.isEmpty && ds.all Char.isDigit then some (digitsToNat ds : Int) else none
  match (pyStrip s).data with
  | '+' :: r => parse r
  | '-' :: r => (parse r).map (fun n => -n)
  | r => parse r

/-- Body of the `try` block of `_preflight`
(`src/auggie_mcp_server.py` lines 205-211): probe `node -v`, assert a
zero exit and non-empty output, parse the major version and assert it
is at least 18, then probe `auggie --version` and assert a zero exit.
Every failure is an `Exception` (`AssertionError`, `ValueError`,
`FileNotFoundError` or `asyncio.TimeoutError`); the exact messages are
irrelevant downstream because `_preflight` discards them (see
`preflightModel`).  Also returns the argvs spawned. -/
def preflightCore (w : World) : Except PyErr Unit × List (List String) :=
  match w.run nodeCmd with
  | RunOutcome.timeout => (Except.error PyErr.timeoutError, [nodeCmd])
  | RunOutcome.spawnError m => (Except.error (PyErr.spawnError m), [nodeCmd])
  | RunOutcome.ok r =>
    if r.code = 0 ∧ pyStrip r.out ≠ "" then
      match pyIntOpt (verFirst r.out) with
      | none => (Except.error (PyErr.runtimeError "invalid literal for int()"), [nodeCmd])
      | some major =>
        if major < 18 then
          (Except.error (PyErr.runtimeError ("Node 18+ required, found v" ++ pyStrip r.out)),
           [nodeCmd])
        else
          match w.run auggieVersionCmd with
          | RunOutcome.timeout => (Except.error PyErr.timeoutError, [nodeCmd, auggieVersionCmd])
          | RunOutcome.spawnError m =>
            (Except.error (PyErr.spawnError m), [nodeCmd, auggieVersionCmd])
          | RunOutcome.ok r2 =>
            if r2.code = 0 then (Except.ok (), [nodeCmd, auggieVersionCmd])
            else (Except.error (PyErr.runtimeError "assert code == 0"),
                  [nodeCmd, auggieVersionCmd])
    else (Except.error (PyErr.runtimeError "assert code == 0 and out.strip()"), [nodeCmd])

/-- `_preflight` (`src/auggie_mcp_server.py` lines 204-214): the `except
Exception` handler prints the message to stderr and calls `sys.exit(1)`,
so every unmet condition surfaces as `SystemExit(1)` — not as the caught
exception. -/
def preflightModel (w : World) : Except PyErr Unit × List (List String) :=
  match preflightCore w with
  | (Except.ok u, tr) => (Except.ok u, tr)
  | (Except.error _, tr) => (Except.error (PyErr.systemExit 1), tr)

/-- The `try: await _preflight() except Exception as e: raise
RuntimeError(f"Preflight failed: {e}")` wrapper in both tools
(`src/auggie_mcp_server.py` lines 75-78 and 135-138).  `SystemExit` is
not an `Exception`, so it passes through unwrapped. -/
def wrapPreflightErr (e : PyErr) : PyErr :=
  if e.isException then PyErr.runtimeError ("Preflight failed: " ++ e.text) else e

/-- Return value of `ask_question` on success. -/
structure AskOutcome where
  answer : String
  durationMs : Nat
deriving Repr, DecidableEq

/-- `ask_question` (`src/auggie_mcp_server.py` lines 64-86): preflight,
run the agent in quiet mode, raise `RuntimeError("Auggie failed: ...")`
on a non-zero exit, else answer with the stripped stdout.  Also returns
the argvs spawned. -/
def askQuestion (question : String) (workspace_root model rules_path : Option String)
    (w : World) : Except PyErr AskOutcome × List (List String) :=
  match (preflightModel w).1 with
  | Except.error e => (Except.error (wrapPreflightErr e), (preflightModel w).2)
  | Except.ok _ =>
    let cmd := auggieBaseArgs question workspace_root model rules_path true
    match w.run cmd with
    | RunOutcome.timeout => (Except.error PyErr.timeoutError, (preflightModel w).2 ++ [cmd])
    | RunOutcome.spawnError m =>
      (Except.error (PyErr.spawnError m), (preflightModel w).2 ++ [cmd])
    | RunOutcome.ok r =>
      if r.code = 0 then
        (Except.ok { answer := pyStrip r.out, durationMs := w.elapsedMs },
         (preflightModel w).2 ++ [cmd])
      else
        (Except.error (PyErr.runtimeError
           ("Auggie failed: " ++ strOr (pyStrip r.err) (pyStrip r.out))),
         (preflightModel w).2 ++ [cmd])

/-- Return value of `implement` (the `ImplementResult` TypedDict). -/
structure ImplementResult where
  summary : String
  files_changed : List String
  diff : String
  committed : Bool
  commit_sha : Option String
  durationMs : Nat
deriving Repr, DecidableEq

/-- The diff size cap at the return of `implement`
(`src/auggie_mcp_server.py` line 197): `diff if len(diff) <= 200_000
else ""`. -/
def capDiff (d : String) : String :=
  if d.length ≤ 200000 then d else ""

/-- The commit message actually passed to `git commit -m`
(`src/auggie_mcp_server.py` lines 188-190): Python `if not
commit_message:` treats both `None` and the empty string as absent and
derives `f"Implement: {prompt[:72]}"`. -/
def effectiveCommitMessage (prompt : String) (commit_message : Option String) : String :=
  match commit_message with
  | some m => if m = "" then "Implement: " ++ takeChars 72 prompt else m
  | none => "Implement: " ++ takeChars 72 prompt

/-- The scope hint (`src/auggie_mcp_server.py` lines 159-161): empty
for `None` and for the empty list (Python truthiness). -/
def scopeHint (scope : Option (List String)) : String :=
  match scope with
  | some l => if l.isEmpty then "" else "\nScope: limit edits to " ++ joinSep ", " l
  | none => ""

/-- `if not workspace_root: workspace_root = os.getcwd()`
(`src/auggie_mcp_server.py` lines 139-140). -/
def effRoot (workspace_root : Option String) (cwd : String) : String :=
  match workspace_root with
  | some s => if s = "" then cwd else s
  | none => cwd

/-- Python truthiness of the `branch` argument (line 145). -/
def branchName (branch : Option String) : Option String :=
  match branch with
  | some b => if b = "" then none else some b
  | none => none

/-- The result-collection and commit tail of `implement`
(`src/auggie_mcp_server.py` lines 172-201), given the stripped agent
stdout as `summary`: parse `git status --porcelain`, fetch `git diff`
only when the path list is non-empty, and when not in dry-run mode with
a non-empty change set stage everything, commit with the effective
message, and resolve the stripped `git rev-parse HEAD` output as the
commit identifier.  Also returns the argvs spawned. -/
def collectAndCommit (w : World) (dry_run : Bool) (prompt : String)
    (commit_message : Option String) (summary : String) :
    Except PyErr ImplementResult × List (List String) :=
  match gitCall w ["status", "--porcelain"] with
  | Except.error e => (Except.error e, [gitStatusCmd])
  | Except.ok statusOut =>
    let files := collectFilesChanged (pySplitlines statusOut)
    match (if files.isEmpty then (Except.ok "" : Except PyErr String)
           else gitCall w ["diff"]) with
    | Except.error e => (Except.error e, gitStatusCmd :: (if files.isEmpty then [] else [gitDiffCmd]))
    | Except.ok diffText =>
      if dry_run = false ∧ files ≠ [] then
        match gitCall w ["add", "-A"] with
        | Except.error e => (Except.error e, [gitStatusCmd, gitDiffCmd, gitAddCmd])
        | Except.ok _ =>
          match gitCall w ["commit", "-m", effectiveCommitMessage prompt commit_message] with
          | Except.error e =>
            (Except.error e,
             [gitStatusCmd, gitDiffCmd, gitAddCmd,
              gitCommitCmd (effectiveCommitMessage prompt commit_message)])
          | Except.ok _ =>
            match gitCall w ["rev-parse", "HEAD"] with
            | Except.error e =>
              (Except.error e,
               [gitStatusCmd, gitDiffCmd, gitAddCmd,
                gitCommitCmd (effectiveCommitMessage prompt commit_message), gitRevParseCmd])
            | Except.ok shaOut =>
              (Except.ok { summary := summary, files_changed := files, diff := capDiff diffText,
                           committed := true, commit_sha := some (pyStrip shaOut),
                           durationMs := w.elapsedMs },
               [gitStatusCmd, gitDiffCmd, gitAddCmd,
                gitCommitCmd (effectiveCommitMessage prompt commit_message), gitRevParseCmd])
      else
        (Except.ok { summary := summary, files_changed := files, diff := capDiff diffText,
                     committed := false, commit_sha := none, durationMs := w.elapsedMs },
         gitStatusCmd :: (if files.isEmpty then [] else [gitDiffCmd]))

/-- Argv of the agent invocation inside `implement`
(`src/auggie_mcp_server.py` lines 163-165): the instruction is the
stripped prompt plus the scope hint. -/
def implementAgentCmd (prompt : String) (scope : Option (List String)) (root : String)
    (model rules_path : Option String) : List String :=
  auggieBaseArgs (pyStrip prompt ++ scopeHint scope) (some root) model rules_path true

/-- The agent-run middle of `implement` (`src/auggie_mcp_server.py`
lines 163-170) followed by `collectAndCommit`; `tr` is the trace of
argvs already spawned. -/
def implementCore (w : World) (prompt : String) (root : String)
    (commit_message : Option String) (scope : Option (List String)) (dry_run : Bool)
    (model rules_path : Option String) (tr : List (List String)) :
    Except PyErr ImplementResult × List (List String) :=
  let cmd := implementAgentCmd prompt scope root model rules_path
  match w.run cmd with
  | RunOutcome.timeout => (Except.error PyErr.timeoutError, tr ++ [cmd])
  | RunOutcome.spawnError m => (Except.error (PyErr.spawnError m), tr ++ [cmd])
  | RunOutcome.ok r =>
    if r.code = 0 then
      ((collectAndCommit w dry_run prompt commit_message (pyStrip r.out)).1,
       tr ++ [cmd] ++ (collectAndCommit w dry_run prompt commit_message (pyStrip r.out)).2)
    else
      (Except.error (PyErr.runtimeError
         ("Auggie failed: " ++ strOr (pyStrip r.err) (pyStrip r.out))),
       tr ++ [cmd])

/-- `implement` (`src/auggie_mcp_server.py` lines 120-201): preflight,
optional `git checkout -B`, sandbox-settings setup for dry-run (a pure
filesystem/environment side effect, not modelled beyond
`readOnlyDenyTools`), agent run, change collection and optional commit.
Also returns the argvs spawned. -/
def implement (prompt : String) (workspace_root branch commit_message : Option String)
    (scope : Option (List String)) (dry_run : Bool) (model rules_path : Option String)
    (w : World) : Except PyErr ImplementResult × List (List String) :=
  match (preflightModel w).1 with
  | Except.error e => (Except.error (wrapPreflightErr e), (preflightModel w).2)
  | Except.ok _ =>
    match branchName branch with
    | some b =>
      match gitCall w ["checkout", "-B", b] with
      | Except.error e => (Except.error e, (preflightModel w).2 ++ [gitCheckoutCmd b])
      | Except.ok _ =>
        implementCore w prompt (effRoot workspace_root w.cwd) commit_message scope dry_run
          model rules_path ((preflightModel w).2 ++ [gitCheckoutCmd b])
    | none =>
      implementCore w prompt (effRoot workspace_root w.cwd) commit_message scope dry_run
        model rules_path (preflightModel w).2

/-- The tool names denied by `_read_only_settings`
(`src/auggie_mcp_server.py` lines 105-117). -/
def readOnlyDenyTools : List String :=
  ["save-file", "str-replace-editor", "remove-files", "launch-process"]

/-- Abstract timing of one spawned process for the `_run` timeout model:
the process would need `duration` (seconds) to complete, producing
`result` if awaited long enough. -/
structure ProcSpec where
  duration : Nat
  result : RunResult
deriving Repr, DecidableEq

/-- `_run` (`src/auggie_mcp_server.py` lines 29-42) with timing made
abstract: the process completes iff its duration is within `timeout`.
On completion, `(returncode, stdout, stderr)` is returned and no kill is
issued; on timeout, `proc.kill()` runs (the Boolean) and the
`asyncio.TimeoutError` is re-raised, so no `RunResult` is produced. -/
def runModel (p : ProcSpec) (timeout : Nat) : Except PyErr RunResult × Bool :=
  if p.duration ≤ timeout then (Except.ok p.result, false)
  else (Except.error PyErr.timeoutError, true)

/-- Concrete oracle for witnesses: a healthy host (node v20, agent
present) and a working tree in which the agent run left one modified
and one untracked file. -/
def demoRun (cmd : List String) : RunOutcome :=
  if cmd = nodeCmd then RunOutcome.ok ⟨0, "v20.11.1\n", ""⟩
  else if cmd = auggieVersionCmd then RunOutcome.ok ⟨0, "0.3.0\n", ""⟩
  else if cmd = gitStatusCmd then RunOutcome.ok ⟨0, "M  src/a.py\n?? notes.txt\n", ""⟩
  else if cmd = gitDiffCmd then RunOutcome.ok ⟨0, "diff --git a b\n", ""⟩
  else if cmd = gitRevParseCmd then RunOutcome.ok ⟨0, "abc123\n", ""⟩
  else RunOutcome.ok ⟨0, "done\n", ""⟩

/-- Witness world built over `demoRun`. -/
def demoWorld : World := { run := demoRun, cwd := "/repo", elapsedMs := 42 }

/-- Concrete oracle for the preflight-failure scenario: node is fine
but the agent binary is absent from PATH, so spawning
`auggie --version` raises `FileNotFoundError`. -/
def noAuggieRun (cmd : List String) : RunOutcome :=
  if cmd = nodeCmd then RunOutcome.ok ⟨0, "v20.11.1\n", ""⟩
  else if cmd = auggieVersionCmd then RunOutcome.spawnError "No such file or directory: auggie"
  else RunOutcome.ok ⟨0, "", ""⟩

/-- World in which the agent binary is missing. -/
def noAuggieWorld : World := { run := noAuggieRun, cwd := "/repo", elapsedMs := 0 }

/-- Concrete oracle for an agent run that exits non-zero with output on
both streams. -/
def agentFailRun (cmd : List String) : RunOutcome :=
  if cmd = nodeCmd then RunOutcome.ok ⟨0, "v18.0.0\n", ""⟩
  else if cmd = auggieVersionCmd then RunOutcome.ok ⟨0, "0.3.0\n", ""⟩
  else RunOutcome.ok ⟨2, "partial text\n", "boom\n"⟩

/-- World in which the agent run fails. -/
def agentFailWorld : World := { run := agentFailRun, cwd := "/repo", elapsedMs := 7 }

/-- The agent argv `implement` builds over `demoWorld` for the prompt
`Fix bug` with no scope. -/
def demoAgentCmd : List String := ["auggie", "--quiet", "--workspace-root", "/repo", "Fix bug"]

/-- Outcome of a dry-run `implement` over `demoWorld`. -/
def demoDryRes : ImplementResult :=
  ⟨"done", ["src/a.py", "notes.txt"], "diff --git a b\n", false, none, 42⟩

/-- Argvs spawned by a dry-run `implement` over `demoWorld`. -/
def demoDryTrace : List (List String) :=
  [nodeCmd, auggieVersionCmd, demoAgentCmd, gitStatusCmd, gitDiffCmd]

/-- Outcome of a committing (non-dry-run) `implement` over `demoWorld`. -/
def demoCommitRes : ImplementResult :=
  ⟨"done", ["src/a.py", "notes.txt"], "diff --git a b\n", true, some "abc123", 42⟩

/-- Argvs spawned by a committing `implement` over `demoWorld`. -/
def demoCommitTrace : List (List String) :=
  [nodeCmd, auggieVersionCmd, demoAgentCmd, gitStatusCmd, gitDiffCmd, gitAddCmd,
   ["git", "commit", "-m", "Implement: Fix bug"], gitRevParseCmd]

/-! ## Theorems -/

/-- Status-class characters are not whitespace. -/
theorem statusChar_not_space (c : Char) (h : isStatusChar c = true) : isPySpace c = false := by
  simp only [isStatusChar, Bool.or_eq_true, beq_iff_eq] at h
  rcases h with (((h | h) | h) | h) | h <;> subst h <;> rfl

/-- The `\s+(.*)$` tail matches exactly when the first character is
whitespace. -/
theorem wsThenCapture_isSome (cs : List Char) :
    (wsThenCapture cs).isSome = headIsSpace cs := by
  cases cs with
  | nil => rfl
  | cons c t => cases h : isPySpace c <;> simp [wsThenCapture, headIsSpace, h]

/-- The status matcher succeeds exactly on the lines described by
`statusLineRecognized`. -/
theorem matchStatus_isSome_eq (cs : List Char) :
    (matchStatusChars cs).isSome = statusLineRecognized cs := by
  unfold matchStatusChars statusLineRecognized
  cases h : cs.dropWhile isPySpace with
  | nil => rfl
  | cons c1 rest =>
    cases rest with
    | nil => cases h1 : isStatusChar c1 <;> simp [h1]
    | cons c2 rest2 =>
      cases h1 : isStatusChar c1
      · simp [h1]
      · cases h2 : isStatusChar c2
        · simp [h1, h2, wsThenCapture_isSome, headIsSpace]
        · have hns := statusChar_not_space c2 h2
          cases rest2 with
          | nil => simp [h1, h2, wsThenCapture, hns, headIsSpace]
          | cons c3 r3 =>
            cases hsp : isPySpace c3 <;>
              simp [h1, h2, wsThenCapture, hns, hsp, headIsSpace]

/-- Claim C10: the change collector recognizes exactly the status lines
whose leading code (after optional whitespace) consists solely of one
or two characters from the set A, M, D, R, ? followed by whitespace;
lines bearing any other status code, such as `C` (copied) or `UU`
(unmerged), are skipped, so their paths never reach `files_changed`. -/
theorem status_code_charset_characterization :
    (∀ line : String, (matchStatusLine line).isSome = statusLineRecognized line.data)
    ∧ matchStatusLine "C  copied.txt" = none
    ∧ matchStatusLine "UU merged.txt" = none
    ∧ matchStatusLine "M  src/a.py" = some "src/a.py" := by
  refine ⟨?_, rfl, rfl, rfl⟩
  intro line
  rw [matchStatusLine, Option.isSome_map']
  exact matchStatus_isSome_eq line.data

/-- Claim C5: the change collector parses `M  src/a.py` and
`?? notes.txt` to the paths `src/a.py` and `notes.txt`, and any line
the fixed pattern does not match — such as `not a status line` — is
silently skipped, contributing nothing to `files_changed`. -/
theorem status_parse_scenario_and_skip :
    collectFilesChanged ["M  src/a.py", "?? notes.txt"] = ["src/a.py", "notes.txt"]
    ∧ matchStatusLine "not a status line" = none
    ∧ collectFilesChanged ["M  src/a.py", "not a status line", "?? notes.txt"]
        = ["src/a.py", "notes.txt"]
    ∧ (∀ (line : String) (rest : List String), matchStatusLine line = none →
        collectFilesChanged (line :: rest) = collectFilesChanged rest) := by
  refine ⟨rfl, rfl, rfl, ?_⟩
  intro line rest h
  simp [collectFilesChanged, List.filterMap_cons, h]

/-- Witness for C5: the skip property applied to the concrete
unparseable line. -/
theorem status_parse_scenario_and_skip_w :
    matchStatusLine "not a status line" = none
    ∧ collectFilesChanged ["not a status line"] = collectFilesChanged [] :=
  ⟨status_parse_scenario_and_skip.2.1,
   status_parse_scenario_and_skip.2.2.2 "not a status line" [] (by decide)⟩

/-- Claim C8: when the spawned process does not complete within the
timeout, `_run` kills it and fails with the timeout condition; no
`(exit code, stdout, stderr)` result is produced. -/
theorem run_timeout_kills (p : ProcSpec) (t : Nat) (h : t < p.duration) :
    runModel p t = (Except.error PyErr.timeoutError, true)
    ∧ ∀ (r : RunResult) (b : Bool), runModel p t ≠ (Except.ok r, b) := by
  unfold runModel
  rw [if_neg (by omega)]
  refine ⟨rfl, ?_⟩
  intro r b hc
  simp at hc

/-- Witness for C8: a process needing 5 seconds against a 1-second
timeout is killed and yields no result. -/
theorem run_timeout_kills_w :
    1 < (5 : Nat) ∧ runModel ⟨5, ⟨0, "", ""⟩⟩ 1 = (Except.error PyErr.timeoutError, true) :=
  ⟨by decide, (run_timeout_kills ⟨5, ⟨0, "", ""⟩⟩ 1 (by decide)).1⟩

/-- Inversion of a successful `_git` call: the underlying process
completed with exit code 0 and the returned text is its raw stdout. -/
theorem gitCall_ok_inv (w : World) (args : List String) (out : String)
    (h : gitCall w args = Except.ok out) :
    ∃ rr, w.run ("git" :: args) = RunOutcome.ok rr ∧ rr.code = 0 ∧ out = rr.out := by
  unfold gitCall at h
  cases hr : w.run ("git" :: args) with
  | timeout => rw [hr] at h; simp at h
  | spawnError m => rw [hr] at h; simp at h
  | ok rr =>
    rw [hr] at h
    dsimp only at h
    by_cases hc : rr.code = 0
    · rw [if_pos hc] at h; injection h with h'; exact ⟨rr, rfl, hc, h'.symm⟩
    · rw [if_neg hc] at h; simp at h

/-- Full inversion of a successful `collectAndCommit`: the summary and
duration are passed through; either nothing was committed (with the
status/diff trace) or not-dry-run committed a non-empty change set and
resolved the stripped `rev-parse` output; and the diff field is empty
for an empty change set, else the capped fetched diff. -/
theorem cc_ok_inv (w : World) (dry : Bool) (p : String) (cm : Option String) (s : String)
    (r : ImplementResult) (t : List (List String))
    (h : collectAndCommit w dry p cm s = (Except.ok r, t)) :
    r.summary = s ∧ r.durationMs = w.elapsedMs ∧
    (r.committed = false ∧ r.commit_sha = none ∧ (dry = false → r.files_changed = []) ∧
       t = gitStatusCmd :: (if r.files_changed = [] then [] else [gitDiffCmd])
     ∨ r.committed = true ∧ dry = false ∧ r.files_changed ≠ [] ∧
       (∃ rr, w.run gitRevParseCmd = RunOutcome.ok rr ∧ rr.code = 0 ∧
          r.commit_sha = some (pyStrip rr.out)) ∧
       t = [gitStatusCmd, gitDiffCmd, gitAddCmd,
            gitCommitCmd (effectiveCommitMessage p cm), gitRevParseCmd]) ∧
    (r.files_changed = [] → r.diff = "") ∧
    (r.files_changed ≠ [] →
       ∃ rr, w.run gitDiffCmd = RunOutcome.ok rr ∧ rr.code = 0 ∧ r.diff = capDiff rr.out) := by
  simp only [collectAndCommit] at h
  split at h
  · exact absurd h (by simp)
  · rename_i statusOut heqStatus
    cases hfs : collectFilesChanged (pySplitlines statusOut) with
    | nil =>
      rw [hfs] at h
      simp at h
      obtain ⟨h1, h2⟩ := h
      subst h1
      subst h2
      refine ⟨rfl, rfl, Or.inl ⟨rfl, rfl, fun _ => rfl, by simp⟩, fun _ => rfl,
        fun hne => absurd rfl hne⟩
    | cons a l =>
      rw [hfs] at h
      simp only [List.isEmpty_cons, Bool.false_eq_true, if_false] at h
      split at h
      · exact absurd h (by simp)
      · rename_i diffText heqDiff
        split at h
        · rename_i hcond
          split at h
          · exact absurd h (by simp)
          · rename_i addOut heqAdd
            split at h
            · exact absurd h (by simp)
            · rename_i commitOut heqCommit
              split at h
              · exact absurd h (by simp)
              · rename_i shaOut heqSha
                rw [Prod.mk.injEq] at h
                obtain ⟨h1, h2⟩ := h
                injection h1 with h1
                subst h1
                subst h2
                obtain ⟨rr, hrun, hc0, hout⟩ := gitCall_ok_inv w ["rev-parse", "HEAD"] shaOut heqSha
                obtain ⟨rd, hrund, hcd, houtd⟩ := gitCall_ok_inv w ["diff"] diffText heqDiff
                refine ⟨rfl, rfl, Or.inr ⟨rfl, hcond.1, by simp, ⟨rr, hrun, hc0, by rw [hout]⟩, rfl⟩,
                  fun hh => absurd hh (List.cons_ne_nil a l), fun _ => ⟨rd, hrund, hcd, by rw [houtd]⟩⟩
        · rename_i hcond
          rw [Prod.mk.injEq] at h
          obtain ⟨h1, h2⟩ := h
          injection h1 with h1
          subst h1
          subst h2
          obtain ⟨rd, hrund, hcd, houtd⟩ := gitCall_ok_inv w ["diff"] diffText heqDiff
          refine ⟨rfl, rfl, Or.inl ⟨rfl, rfl,
            fun hd => absurd ⟨hd, List.cons_ne_nil a l⟩ hcond, by simp⟩,
            fun hh => absurd hh (List.cons_ne_nil a l), fun _ => ⟨rd, hrund, hcd, by rw [houtd]⟩⟩

/-- The preflight spawns the node probe, and the agent probe only after
the node checks pass. -/
theorem preflightCore_trace (w : World) :
    (preflightCore w).2 = [nodeCmd] ∨ (preflightCore w).2 = [nodeCmd, auggieVersionCmd] := by
  unfold preflightCore
  repeat' split
  all_goals simp

/-- `_preflight` spawns exactly what its `try` body spawns. -/
theorem preflightModel_trace (w : World) :
    (preflightModel w).2 = (preflightCore w).2 := by
  unfold preflightModel
  split <;> rename_i heq <;> rw [heq]

/-- Every argv the preflight spawns is one of the two version probes. -/
theorem preflight_mem (w : World) (c : List String) (hc : c ∈ (preflightModel w).2) :
    c = nodeCmd ∨ c = auggieVersionCmd := by
  rw [preflightModel_trace] at hc
  rcases preflightCore_trace w with h1 | h1 <;> rw [h1] at hc <;> simp at hc <;> tauto

/-- A two-element prefix determines the head. -/
theorem head?_of_take2 (c : List String) (a y : String) (h : c.take 2 = [a, y]) :
    c.head? = some a := by
  cases c with
  | nil => simp at h
  | cons x xs =>
    rw [List.take_succ_cons] at h
    injection h with h1 _
    simp [h1]

/-- An argv whose head is not `git` is no git subcommand at all. -/
theorem take2_ne_git (c : List String) (hx : c.head? ≠ some "git") (y : String) :
    c.take 2 ≠ ["git", y] := fun hEq => hx (head?_of_take2 c "git" y hEq)

/-- Inversion of a successful agent-run tail of `implement`: the
outcome comes from `collectAndCommit` on the stripped agent stdout, and
the trace extends the prefix by the agent argv and the collection
trace. -/
theorem implementCore_ok_inv (w : World) (p root : String) (cm : Option String)
    (scope : Option (List String)) (dry : Bool) (model rules : Option String)
    (tr0 : List (List String)) (r : ImplementResult) (tr : List (List String))
    (h : implementCore w p root cm scope dry model rules tr0 = (Except.ok r, tr)) :
    ∃ s tr2, collectAndCommit w dry p cm s = (Except.ok r, tr2) ∧
      tr = tr0 ++ [implementAgentCmd p scope root model rules] ++ tr2 := by
  simp only [implementCore] at h
  split at h
  · exact absurd h (by simp)
  · exact absurd h (by simp)
  · rename_i rr heqRun
    split at h
    · rename_i hcode
      rw [Prod.mk.injEq] at h
      obtain ⟨h1, h2⟩ := h
      refine ⟨pyStrip rr.out, (collectAndCommit w dry p cm (pyStrip rr.out)).2, ?_, h2.symm⟩
      rw [← h1]
    · exact absurd h (by simp)

/-- Inversion of a successful `implement`: the outcome comes from
`collectAndCommit`, and everything spawned before the collection phase
is a version probe, a `git checkout -B`, or the agent argv. -/
theorem implement_ok_inv (p : String) (wr br cm : Option String) (scope : Option (List String))
    (dry : Bool) (model rules : Option String) (w : World) (r : ImplementResult)
    (tr : List (List String))
    (h : implement p wr br cm scope dry model rules w = (Except.ok r, tr)) :
    ∃ trPre s tr2,
      (∀ c ∈ trPre, c = nodeCmd ∨ c = auggieVersionCmd ∨ (∃ b, c = gitCheckoutCmd b) ∨
        c = implementAgentCmd p scope (effRoot wr w.cwd) model rules) ∧
      collectAndCommit w dry p cm s = (Except.ok r, tr2) ∧
      tr = trPre ++ tr2 := by
  simp only [implement] at h
  split at h
  · exact absurd h (by simp)
  · split at h
    · rename_i b heqB
      split at h
      · exact absurd h (by simp)
      · rename_i co heqCo
        obtain ⟨s, tr2, hcc, htr⟩ := implementCore_ok_inv w p (effRoot wr w.cwd) cm scope dry
          model rules _ r tr h
        refine ⟨((preflightModel w).2 ++ [gitCheckoutCmd b]) ++
          [implementAgentCmd p scope (effRoot wr w.cwd) model rules], s, tr2, ?_, hcc, htr⟩
        intro c hc
        rcases List.mem_append.1 hc with hc | hc
        · rcases List.mem_append.1 hc with hc | hc
          · rcases preflight_mem w c hc with h1 | h1
            · exact Or.inl h1
            · exact Or.inr (Or.inl h1)
          · simp at hc
            exact Or.inr (Or.inr (Or.inl ⟨b, hc⟩))
        · simp at hc
          exact Or.inr (Or.inr (Or.inr hc))
    · obtain ⟨s, tr2, hcc, htr⟩ := implementCore_ok_inv w p (effRoot wr w.cwd) cm scope dry
        model rules _ r tr h
      refine ⟨(preflightModel w).2 ++
        [implementAgentCmd p scope (effRoot wr w.cwd) model rules], s, tr2, ?_, hcc, htr⟩
      intro c hc
      rcases List.mem_append.1 hc with hc | hc
      · rcases preflight_mem w c hc with h1 | h1
        · exact Or.inl h1
        · exact Or.inr (Or.inl h1)
      · simp at hc
        exact Or.inr (Or.inr (Or.inr hc))

/-- Diffs beyond the 200,000-character cap are reported empty, never
truncated. -/
theorem capDiff_big (d : String) (h : 200000 < d.length) : capDiff d = "" := by
  unfold capDiff
  rw [if_neg (by omega)]

/-- Claim C1: every outcome a dry-run `implement` returns has
`committed = false`, whether the collected change set is empty or not,
and no `git add` or `git commit` subcommand is ever spawned on the
way. -/
theorem implement_dry_run_never_commits (p : String) (wr br cm : Option String)
    (scope : Option (List String)) (model rules : Option String) (w : World)
    (r : ImplementResult) (tr : List (List String))
    (h : implement p wr br cm scope true model rules w = (Except.ok r, tr)) :
    r.committed = false
    ∧ ∀ c ∈ tr, c.take 2 ≠ ["git", "add"] ∧ c.take 2 ≠ ["git", "commit"] := by
  obtain ⟨trPre, s, tr2, hpre, hcc, htr⟩ :=
    implement_ok_inv p wr br cm scope true model rules w r tr h
  have hinv := cc_ok_inv w true p cm s r tr2 hcc
  have hcases := hinv.2.2.1
  constructor
  · rcases hcases with hl | hr
    · exact hl.1
    · exact absurd hr.2.1 (by simp)
  · intro c hc
    rw [htr] at hc
    rcases List.mem_append.1 hc with hc | hc
    · rcases hpre c hc with h1 | h1 | ⟨b, h1⟩ | h1
      · subst h1; exact ⟨by decide, by decide⟩
      · subst h1; exact ⟨by decide, by decide⟩
      · subst h1
        have ht : (gitCheckoutCmd b).take 2 = ["git", "checkout"] := rfl
        rw [ht]
        exact ⟨by decide, by decide⟩
      · subst h1
        constructor <;>
          exact take2_ne_git _ (by intro hx; injection hx with hx; exact absurd hx (by decide)) _
    · rcases hcases with hl | hr
      · rw [hl.2.2.2] at hc
        by_cases hf : r.files_changed = [] <;> simp [hf] at hc
        · subst hc; exact ⟨by decide, by decide⟩
        · rcases hc with hc | hc <;> subst hc <;> exact ⟨by decide, by decide⟩
      · exact absurd hr.2.1 (by simp)

/-- Witness for C1: the dry run over `demoWorld` reports two changed
files yet `committed = false`. -/
theorem implement_dry_run_never_commits_w :
    implement "Fix bug" none none none none true none none demoWorld
        = (Except.ok demoDryRes, demoDryTrace)
    ∧ demoDryRes.committed = false :=
  ⟨rfl, (implement_dry_run_never_commits "Fix bug" none none none none none none demoWorld
      demoDryRes demoDryTrace rfl).1⟩

/-- Claim C2: in every outcome `implement` returns, `commit_sha` is
non-null exactly when `committed` is true — for any `dry_run` value and
any change set — and when committed it equals the stripped output of
`git rev-parse HEAD`. -/
theorem implement_commit_sha_iff_committed (p : String) (wr br cm : Option String)
    (scope : Option (List String)) (dry : Bool) (model rules : Option String) (w : World)
    (r : ImplementResult) (tr : List (List String))
    (h : implement p wr br cm scope dry model rules w = (Except.ok r, tr)) :
    (r.commit_sha ≠ none ↔ r.committed = true)
    ∧ (r.committed = true → ∀ rr, w.run gitRevParseCmd = RunOutcome.ok rr →
        r.commit_sha = some (pyStrip rr.out)) := by
  obtain ⟨trPre, s, tr2, hpre, hcc, htr⟩ :=
    implement_ok_inv p wr br cm scope dry model rules w r tr h
  have hinv := cc_ok_inv w dry p cm s r tr2 hcc
  rcases hinv.2.2.1 with hl | hr
  · constructor
    · rw [hl.1, hl.2.1]; simp
    · intro hcom; rw [hl.1] at hcom; exact absurd hcom (by simp)
  · obtain ⟨hcom, hdry, hne, ⟨rr0, hrun0, hc0, hsha⟩, htr2⟩ := hr
    constructor
    · rw [hcom, hsha]; simp
    · intro _ rr hrr
      rw [hrun0] at hrr
      injection hrr with hrr
      rw [hsha, hrr]

/-- Witness for C2: the committing run over `demoWorld` carries the
stripped `rev-parse` output as `commit_sha`. -/
theorem implement_commit_sha_iff_committed_w :
    implement "Fix bug" none none none none false none none demoWorld
        = (Except.ok demoCommitRes, demoCommitTrace)
    ∧ demoCommitRes.commit_sha = some (pyStrip "abc123\n") :=
  ⟨rfl, (implement_commit_sha_iff_committed "Fix bug" none none none none false none none
      demoWorld demoCommitRes demoCommitTrace rfl).2 rfl ⟨0, "abc123\n", ""⟩ rfl⟩

/-- Claim C4: in every outcome `implement` returns, a non-empty `diff`
requires a non-empty `files_changed`, and whenever the fetched diff
text exceeds 200,000 characters the returned `diff` is exactly the
empty string — `capDiff` never truncates. -/
theorem implement_diff_requires_changes (p : String) (wr br cm : Option String)
    (scope : Option (List String)) (dry : Bool) (model rules : Option String) (w : World)
    (r : ImplementResult) (tr : List (List String))
    (h : implement p wr br cm scope dry model rules w = (Except.ok r, tr)) :
    (r.diff ≠ "" → r.files_changed ≠ [])
    ∧ (∀ rr, r.files_changed ≠ [] → w.run gitDiffCmd = RunOutcome.ok rr →
        200000 < rr.out.length → r.diff = "")
    ∧ (∀ d : String, 200000 < d.length → capDiff d = "") := by
  obtain ⟨trPre, s, tr2, hpre, hcc, htr⟩ :=
    implement_ok_inv p wr br cm scope dry model rules w r tr h
  have hinv := cc_ok_inv w dry p cm s r tr2 hcc
  obtain ⟨-, -, -, hdiff0, hdiffS⟩ := hinv
  refine ⟨fun hd hf => hd (hdiff0 hf), ?_, fun d hd => capDiff_big d hd⟩
  intro rr hne hrr hlen
  obtain ⟨rd, hrund, hcd, hcap⟩ := hdiffS hne
  rw [hrund] at hrr
  injection hrr with hrr
  rw [hcap, hrr]
  exact capDiff_big rr.out hlen

/-- Witness for C4: the `demoWorld` outcome has a non-empty diff and,
by the theorem, a non-empty change list. -/
theorem implement_diff_requires_changes_w :
    implement "Fix bug" none none none none false none none demoWorld
        = (Except.ok demoCommitRes, demoCommitTrace)
    ∧ demoCommitRes.files_changed ≠ [] :=
  ⟨rfl, (implement_diff_requires_changes "Fix bug" none none none none false none none
      demoWorld demoCommitRes demoCommitTrace rfl).1 (by decide)⟩

/-- Claim C6: when `implement` commits and no `commit_message` was
supplied, the message passed to `git commit -m` is `Implement: `
followed by the first 72 characters of the original prompt; for the
53-character scenario prompt no truncation occurs. -/
theorem implement_default_commit_message (p : String) (wr br : Option String)
    (scope : Option (List String)) (dry : Bool) (model rules : Option String) (w : World)
    (r : ImplementResult) (tr : List (List String))
    (h : implement p wr br none scope dry model rules w = (Except.ok r, tr))
    (hcom : r.committed = true) :
    gitCommitCmd ("Implement: " ++ takeChars 72 p) ∈ tr
    ∧ effectiveCommitMessage "Refactor the parser module to support streaming input" none
        = "Implement: Refactor the parser module to support streaming input" := by
  refine ⟨?_, rfl⟩
  obtain ⟨trPre, s, tr2, hpre, hcc, htr⟩ :=
    implement_ok_inv p wr br none scope dry model rules w r tr h
  have hinv := cc_ok_inv w dry p none s r tr2 hcc
  rcases hinv.2.2.1 with hl | hr
  · rw [hl.1] at hcom; exact absurd hcom (by simp)
  · rw [htr]
    refine List.mem_append.2 (Or.inr ?_)
    rw [hr.2.2.2.2]
    have hmsg : effectiveCommitMessage p none = "Implement: " ++ takeChars 72 p := rfl
    rw [← hmsg]
    simp

/-- Witness for C6: the committing `demoWorld` run with omitted message
spawns `git commit -m "Implement: Fix bug"`. -/
theorem implement_default_commit_message_w :
    implement "Fix bug" none none none none false none none demoWorld
        = (Except.ok demoCommitRes, demoCommitTrace)
    ∧ gitCommitCmd ("Implement: " ++ takeChars 72 "Fix bug") ∈ demoCommitTrace :=
  ⟨rfl, (implement_default_commit_message "Fix bug" none none none false none none demoWorld
      demoCommitRes demoCommitTrace rfl rfl).1⟩

/-- Claim C9: a caller-supplied empty `commit_message` is treated as
omitted (Python truthiness): a committing `implement` then uses the
derived `Implement: ` message, identical to the omitted case. -/
theorem implement_empty_commit_message_default (p : String) (wr br : Option String)
    (scope : Option (List String)) (dry : Bool) (model rules : Option String) (w : World)
    (r : ImplementResult) (tr : List (List String))
    (h : implement p wr br (some "") scope dry model rules w = (Except.ok r, tr))
    (hcom : r.committed = true) :
    gitCommitCmd ("Implement: " ++ takeChars 72 p) ∈ tr
    ∧ ∀ q : String, effectiveCommitMessage q (some "") = effectiveCommitMessage q none := by
  refine ⟨?_, fun q => rfl⟩
  obtain ⟨trPre, s, tr2, hpre, hcc, htr⟩ :=
    implement_ok_inv p wr br (some "") scope dry model rules w r tr h
  have hinv := cc_ok_inv w dry p (some "") s r tr2 hcc
  rcases hinv.2.2.1 with hl | hr
  · rw [hl.1] at hcom; exact absurd hcom (by simp)
  · rw [htr]
    refine List.mem_append.2 (Or.inr ?_)
    rw [hr.2.2.2.2]
    have hmsg : effectiveCommitMessage p (some "") = "Implement: " ++ takeChars 72 p := rfl
    rw [← hmsg]
    simp

/-- Witness for C9: the committing `demoWorld` run with an empty
message spawns `git commit -m "Implement: Fix bug"`, exactly as the
omitted-message run does. -/
theorem implement_empty_commit_message_default_w :
    implement "Fix bug" none none (some "") none false none none demoWorld
        = (Except.ok demoCommitRes, demoCommitTrace)
    ∧ gitCommitCmd ("Implement: " ++ takeChars 72 "Fix bug") ∈ demoCommitTrace :=
  ⟨rfl, (implement_empty_commit_message_default "Fix bug" none none none false none none
      demoWorld demoCommitRes demoCommitTrace rfl rfl).1⟩

/-- Claim C7: once preflight passes, `ask_question` fails with
`RuntimeError("Auggie failed: ...")` — message the stripped stderr if
non-empty else the stripped stdout — for every non-zero agent exit
code, returning no answer at all; on exit code zero it returns the
stripped stdout as the answer with the elapsed duration. -/
theorem ask_question_failure_and_success (q : String) (wr model rules : Option String)
    (w : World) (rr : RunResult)
    (hpf : (preflightModel w).1 = Except.ok ())
    (hrun : w.run (auggieBaseArgs q wr model rules true) = RunOutcome.ok rr) :
    (rr.code ≠ 0 → (askQuestion q wr model rules w).1 =
        Except.error (PyErr.runtimeError
          ("Auggie failed: " ++ strOr (pyStrip rr.err) (pyStrip rr.out))))
    ∧ (rr.code = 0 → (askQuestion q wr model rules w).1 =
        Except.ok { answer := pyStrip rr.out, durationMs := w.elapsedMs }) := by
  have hbody : (askQuestion q wr model rules w).1
      = if rr.code = 0 then
          (Except.ok { answer := pyStrip rr.out, durationMs := w.elapsedMs } :
            Except PyErr AskOutcome)
        else Except.error (PyErr.runtimeError
          ("Auggie failed: " ++ strOr (pyStrip rr.err) (pyStrip rr.out))) := by
    unfold askQuestion
    rw [hpf]
    simp only
    rw [hrun]
    by_cases hc : rr.code = 0 <;> simp [hc]
  exact ⟨fun hc => by rw [hbody, if_neg hc], fun hc => by rw [hbody, if_pos hc]⟩

/-- Witness for C7: over `agentFailWorld` the agent exits with code 2
and non-empty stderr, and the call fails with exactly that stripped
stderr in the message. -/
theorem ask_question_failure_and_success_w :
    (preflightModel agentFailWorld).1 = Except.ok ()
    ∧ (askQuestion "Why is the build failing?" none none none agentFailWorld).1 =
        Except.error (PyErr.runtimeError "Auggie failed: boom") :=
  ⟨rfl, (ask_question_failure_and_success "Why is the build failing?" none none none
      agentFailWorld ⟨2, "partial text\n", "boom\n"⟩ rfl rfl).1 (by decide)⟩

/-- Claim C3 evaluation at the failing input (agent binary absent from
PATH): both operations end in `SystemExit(1)` — the `sys.exit(1)`
inside `_preflight` bypasses the callers' `except Exception` wrappers,
so no error naming the missing dependency reaches the caller and the
server process terminates — while, as the traces show, no process for
the actual task is spawned. -/
theorem preflight_failure_exits_process :
    (askQuestion "What build system is used?" none none none noAuggieWorld).1
        = Except.error (PyErr.systemExit 1)
    ∧ (askQuestion "What build system is used?" none none none noAuggieWorld).2
        = [nodeCmd, auggieVersionCmd]
    ∧ (implement "Fix the flaky test" none none none none true none none noAuggieWorld).1
        = Except.error (PyErr.systemExit 1)
    ∧ (implement "Fix the flaky test" none none none none true none none noAuggieWorld).2
        = [nodeCmd, auggieVersionCmd] :=
  ⟨rfl, rfl, rfl, rfl⟩

end Auggie
